import Mathlib

/-!
Verification of the thread-pool library in `src/lib.rs`.

The library is shallowly embedded: jobs (boxed closures) are opaque tokens,
the mpsc channel is a FIFO list of messages together with a liveness flag for
the shared receiving end, thread spawning and joining are modelled through
handle tokens and explicit event traces, and every `unwrap` panic is an
`Except.error`.
-/

set_option maxHeartbeats 1000000

/-- A `Job` is `Box<dyn FnOnce() + Send + 'static>`: a type-erased, one-shot,
heap-allocated closure.  Its body is opaque to the pool, so each boxed job is
modelled by an identifying token. -/
abbrev Job := Nat

/-- `enum Message { NewJob(Job), Terminate }` (src/lib.rs lines 88-93). -/
inductive Message where
  | NewJob (job : Job)
  | Terminate
deriving DecidableEq

/-- The state of the `mpsc::channel()` created in `ThreadPool::new`
(src/lib.rs line 28): a FIFO queue of messages, plus whether the single
(shared, `Arc<Mutex<_>>`-wrapped) receiving end is still alive.
`mpsc::Sender::send` succeeds exactly when a receiver remains. -/
structure Channel where
  queue : List Message
  receiverAlive : Bool
deriving DecidableEq

/-- `self.sender.send(m)`: appends `m` to the FIFO queue, or fails with a
send error when the receiving end has been dropped. -/
def Channel.send (c : Channel) (m : Message) : Except Unit Channel :=
  if c.receiverAlive then .ok { c with queue := c.queue ++ [m] } else .error ()

/-- A `thread::JoinHandle<()>` is modelled by an opaque token. -/
abbrev ThreadHandle := Nat

/-- `struct Worker { id: usize, thread: Option<thread::JoinHandle<()>> }`
(src/lib.rs lines 95-98). -/
structure Worker where
  id : Nat
  thread : Option ThreadHandle
deriving DecidableEq

/-- `Worker::new(id, receiver)` (src/lib.rs lines 112-132): spawns the worker
thread (its loop is modelled separately by `workerLoop` and
`workerIterationTrace`) and stores the fresh handle as `Some(thread)`. -/
def Worker.new (id : Nat) : Worker :=
  { id := id, thread := some id }

/-- `struct PoolCreationError { details: String }` (src/lib.rs lines 135-138). -/
structure PoolCreationError where
  details : String
deriving DecidableEq

/-- `PoolCreationError::new()` (src/lib.rs lines 141-143). -/
def PoolCreationError.new : PoolCreationError :=
  { details := "Cannot create a thread pool with 0 threads." }

/-- The `fmt::Display` impl (src/lib.rs lines 146-150): `write!(f, "{}", self.details)`
renders exactly the stored message. -/
def PoolCreationError.display (e : PoolCreationError) : String :=
  e.details

/-- The `Error` impl (src/lib.rs lines 152-156): `description` returns
`&self.details`. -/
def PoolCreationError.description (e : PoolCreationError) : String :=
  e.details

/-- `struct ThreadPool { workers: Vec<Worker>, sender: mpsc::Sender<Message> }`
(src/lib.rs lines 8-11).  The channel state reached through the sender is
carried inside the pool in the embedding. -/
structure ThreadPool where
  workers : List Worker
  channel : Channel
deriving DecidableEq

/-- `ThreadPool::new(size)` (src/lib.rs lines 23-40): rejects `size == 0` with
a `PoolCreationError`, otherwise creates the channel and pushes workers with
ids `0..size` spawned from `Worker::new`. -/
def ThreadPool.new (size : Nat) : Except PoolCreationError ThreadPool :=
  if size = 0 then
    .error PoolCreationError.new
  else
    .ok { workers := (List.range size).map Worker.new,
          channel := { queue := [], receiverAlive := true } }

/-- Side effects of `ThreadPool::new(size)`: how many OS threads it spawns and
whether it creates the mpsc channel.  The `size == 0` branch returns before
`mpsc::channel()` is reached and before the spawn loop runs. -/
structure NewEffects where
  spawnedThreads : Nat
  channelCreated : Bool
deriving DecidableEq

/-- Effect accounting for `ThreadPool::new` (src/lib.rs lines 23-40). -/
def ThreadPool.newEffects (size : Nat) : NewEffects :=
  if size = 0 then
    { spawnedThreads := 0, channelCreated := false }
  else
    { spawnedThreads := size, channelCreated := true }

/-- An `unwrap()` on a failed operation aborts the calling thread. -/
inductive Panic where
  | unwrapFailed
deriving DecidableEq

/-- `ThreadPool::execute(f)` (src/lib.rs lines 52-59): boxes `f` as a `Job`,
wraps it in `Message::NewJob` and sends it; `unwrap()` panics exactly when the
send fails (no receiver left).  It returns as soon as the message is queued. -/
def ThreadPool.execute (p : ThreadPool) (f : Job) : Except Panic ThreadPool :=
  match p.channel.send (Message.NewJob f) with
  | .ok c => .ok { p with channel := c }
  | .error _ => .error Panic.unwrapFailed

/-- A sequence of `execute` calls on the same pool, in submission order. -/
def ThreadPool.execAll : ThreadPool → List Job → Except Panic ThreadPool
  | p, [] => .ok p
  | p, f :: fs =>
    match p.execute f with
    | .ok p1 => ThreadPool.execAll p1 fs
    | .error e => .error e

/-- Observable events of `ThreadPool::drop`, in the order the drop performs
them: channel sends of `Message::Terminate`, then thread joins by worker id. -/
inductive DropEvent where
  | sendTerminate
  | join (id : Nat)
deriving DecidableEq

/-- `Drop for ThreadPool` (src/lib.rs lines 68-82): first loop sends one
`Terminate` per worker (each send is `unwrap`ped, panicking if no receiver
remains); the second loop walks the workers in `Vec` order, `take`s each
worker's handle (leaving `None`) and joins it when it was present.  The
returned trace records the sends followed by the joins; drop returns only
once every join in the trace has completed. -/
def ThreadPool.drop (p : ThreadPool) : Except Panic (ThreadPool × List DropEvent) :=
  if p.channel.receiverAlive then
    .ok ({ workers := p.workers.map (fun w => { w with thread := none }),
           channel := { p.channel with
             queue := p.channel.queue ++
               List.replicate p.workers.length Message.Terminate } },
         List.replicate p.workers.length DropEvent.sendTerminate ++
           p.workers.filterMap (fun w => w.thread.map (fun _ => DropEvent.join w.id)))
  else
    .error Panic.unwrapFailed

/-- Control state of a worker thread: inside its receive-execute loop, or
with the loop exited (thread function about to return). -/
inductive WorkerState where
  | Running
  | Terminated
deriving DecidableEq

/-- The body of the worker loop (the `match message` in src/lib.rs lines
116-125) applied to one received message: the jobs it runs this iteration and
the control state afterwards. -/
def workerHandle : Message → List Job × WorkerState
  | Message.NewJob job => ([job], WorkerState.Running)
  | Message.Terminate => ([], WorkerState.Terminated)

/-- The worker loop run over a queue of messages, dequeuing front-first: it
returns every job it ran, in order, and its control state when the queue is
exhausted or the loop was exited by `break`.  An empty queue leaves the
worker blocked in `recv`, still inside the loop. -/
def workerLoop : List Message → List Job × WorkerState
  | [] => ([], WorkerState.Running)
  | m :: rest =>
    match workerHandle m with
    | (js, WorkerState.Running) =>
      let r := workerLoop rest
      (js ++ r.1, r.2)
    | (js, WorkerState.Terminated) => (js, WorkerState.Terminated)

/-- Lock-relevant events in one iteration of the worker loop. -/
inductive LockEvent where
  | acquire
  | recv
  | release
  | runJob (j : Job)
deriving DecidableEq

/-- Event trace of one iteration of the worker loop
(src/lib.rs lines 114-125).  In
`let message = receiver.lock().unwrap().recv().unwrap();` the `MutexGuard`
is a temporary whose lifetime ends at the end of that `let` statement, so the
lock is released after `recv` returns and before the `match` on the message
runs the job. -/
def workerIterationTrace : Message → List LockEvent
  | Message.NewJob j =>
    [LockEvent.acquire, LockEvent.recv, LockEvent.release, LockEvent.runJob j]
  | Message.Terminate =>
    [LockEvent.acquire, LockEvent.recv, LockEvent.release]

/-- Whether the receiver lock is held just before the event at index `i`. -/
def lockHeldBefore (trace : List LockEvent) (i : Nat) : Bool :=
  (trace.take i).count LockEvent.release < (trace.take i).count LockEvent.acquire

/-- A sample pool as produced by `ThreadPool::new 2`. -/
def pool2 : ThreadPool :=
  { workers := (List.range 2).map Worker.new,
    channel := { queue := [], receiverAlive := true } }

/-- A sample pool as produced by `ThreadPool::new 3`. -/
def pool3 : ThreadPool :=
  { workers := (List.range 3).map Worker.new,
    channel := { queue := [], receiverAlive := true } }

/-- `pool2` after `execute(7)` then `execute(8)`. -/
def pool2exec : ThreadPool :=
  { workers := (List.range 2).map Worker.new,
    channel := { queue := [Message.NewJob 7, Message.NewJob 8],
                 receiverAlive := true } }

/-- Any pool `ThreadPool::new` returns has workers `0..n` and a fresh,
empty, live channel. -/
theorem new_ok_shape (n : Nat) (p : ThreadPool) (h : ThreadPool.new n = .ok p) :
    p.workers = (List.range n).map Worker.new ∧
    p.channel = { queue := [], receiverAlive := true } := by
  unfold ThreadPool.new at h
  by_cases hn : n = 0 <;> simp [hn] at h
  rw [← h]
  exact ⟨rfl, rfl⟩

/-- The join phase of `drop` over workers built by `Worker::new` joins the
ids `0..n` in order. -/
theorem drop_joins (l : List Nat) :
    (l.map Worker.new).filterMap
      (fun w => w.thread.map (fun _ => DropEvent.join w.id)) =
    l.map DropEvent.join := by
  induction l with
  | nil => rfl
  | cons a l ih => simp [List.filterMap_cons, Worker.new, ih]

/-- Running `execute` over a list of jobs on a pool with a live receiver
appends exactly those jobs, as `NewJob` messages, in submission order. -/
theorem execAll_ok (fs : List Job) : ∀ p : ThreadPool,
    p.channel.receiverAlive = true →
    ThreadPool.execAll p fs = .ok
      { workers := p.workers,
        channel := { queue := p.channel.queue ++ fs.map Message.NewJob,
                     receiverAlive := true } } := by
  induction fs with
  | nil =>
    intro p h
    obtain ⟨ws, q, al⟩ := p
    have hal : al = true := h
    subst hal
    simp [ThreadPool.execAll]
  | cons f fs ih =>
    intro p h
    obtain ⟨ws, q, al⟩ := p
    have hal : al = true := h
    subst hal
    simp only [ThreadPool.execAll, ThreadPool.execute, Channel.send, if_pos]
    rw [ih]
    · simp
    · rfl

/-- In `jobs ++ terminates`, every `NewJob` position precedes every
`Terminate` position. -/
theorem newJob_index_lt_terminate_index (js : List Job) (n i k : Nat) (f : Job)
    (hi : (js.map Message.NewJob ++ List.replicate n Message.Terminate)[i]? =
      some (Message.NewJob f))
    (hk : (js.map Message.NewJob ++ List.replicate n Message.Terminate)[k]? =
      some Message.Terminate) : i < k := by
  have hi2 : i < js.length := by
    by_contra hc
    push_neg at hc
    rw [List.getElem?_append_right (by simpa using hc)] at hi
    rw [List.getElem?_replicate] at hi
    split at hi <;> simp_all
  have hk2 : js.length ≤ k := by
    by_contra hc
    push_neg at hc
    rw [List.getElem?_append_left (by simpa using hc)] at hk
    rw [List.getElem?_map] at hk
    simp at hk
  omega

/-- C2: `ThreadPool::new(0)` returns `Err(PoolCreationError)` rather than a
pool or a panic, and in that branch no worker thread is spawned and the
channel is never created. -/
theorem new_zero_fails :
    ThreadPool.new 0 = .error PoolCreationError.new ∧
    ThreadPool.newEffects 0 = { spawnedThreads := 0, channelCreated := false } :=
  ⟨rfl, rfl⟩

/-- C10: the message stored by `PoolCreationError::new` — the sole
constructor, reached only from `ThreadPool::new` — is exactly the fixed text
`"Cannot create a thread pool with 0 threads."`. -/
theorem poolCreationError_fixed_message :
    PoolCreationError.new.details = "Cannot create a thread pool with 0 threads." ∧
    ∀ n e, ThreadPool.new n = .error e →
      e.details = "Cannot create a thread pool with 0 threads." := by
  refine ⟨rfl, ?_⟩
  intro n e h
  unfold ThreadPool.new at h
  by_cases hn : n = 0
  · simp [hn] at h
    rw [← h]
    rfl
  · simp [hn] at h

/-- Witness for C10 at the concrete input `n = 0`. -/
theorem poolCreationError_fixed_message_witness :
    PoolCreationError.new.details = "Cannot create a thread pool with 0 threads." :=
  poolCreationError_fixed_message.2 0 PoolCreationError.new rfl

/-- C1: for every `n ≥ 1`, `ThreadPool::new(n)` returns `Ok` with a pool of
exactly `n` workers whose ids are `0, 1, ..., n-1` in order, each holding a
present (`Some`) thread handle. -/
theorem new_pos_builds_pool (n : Nat) (h : 1 ≤ n) :
    ∃ p, ThreadPool.new n = .ok p ∧
      p.workers.length = n ∧
      p.workers.map Worker.id = List.range n ∧
      ∀ w ∈ p.workers, w.thread.isSome = true := by
  have hn : ¬ n = 0 := by omega
  refine ⟨{ workers := (List.range n).map Worker.new,
            channel := { queue := [], receiverAlive := true } }, ?_, ?_, ?_, ?_⟩
  · simp [ThreadPool.new, hn]
  · simp
  · simp [Function.comp_def, Worker.new]
  · intro w hw
    simp [Worker.new] at hw
    obtain ⟨i, hi, rfl⟩ := hw
    rfl

/-- Witness for C1 at the concrete size `n = 3`. -/
theorem new_pos_builds_pool_witness :
    ∃ p, ThreadPool.new 3 = .ok p ∧
      p.workers.length = 3 ∧
      p.workers.map Worker.id = List.range 3 ∧
      ∀ w ∈ p.workers, w.thread.isSome = true :=
  new_pos_builds_pool 3 (by decide)

/-- C8: `PoolCreationError`'s `Display` renders exactly the stored `details`
message and the `Error` impl returns the same message as its description; the
stored message of `PoolCreationError::new` is non-empty; and the error is
constructed only in the zero-size branch of `ThreadPool::new`. -/
theorem poolCreationError_contract :
    (∀ e : PoolCreationError, e.display = e.details ∧ e.description = e.details) ∧
    PoolCreationError.new.details ≠ "" ∧
    ∀ n e, ThreadPool.new n = .error e → n = 0 ∧ e = PoolCreationError.new := by
  refine ⟨fun e => ⟨rfl, rfl⟩, by decide, ?_⟩
  intro n e h
  unfold ThreadPool.new at h
  by_cases hn : n = 0 <;> simp [hn] at h
  exact ⟨hn, h.symm⟩

/-- Witness for C8 at the concrete error value and the input `n = 0`. -/
theorem poolCreationError_contract_witness :
    PoolCreationError.new.display = PoolCreationError.new.details ∧
    (0 = 0 ∧ PoolCreationError.new = PoolCreationError.new) :=
  ⟨(poolCreationError_contract.1 PoolCreationError.new).1,
   poolCreationError_contract.2.2 0 PoolCreationError.new rfl⟩

/-- C5: `execute(f)` boxes `f`, wraps it in `NewJob`, and sends exactly that
one message on the shared channel (the queue grows by exactly `[NewJob f]`
and nothing else changes), returning without waiting for the job to run; it
panics exactly when the send fails because no receiver remains alive. -/
theorem execute_sends_one_message (p : ThreadPool) (f : Job) :
    (p.channel.receiverAlive = true →
      p.execute f = .ok
        { workers := p.workers,
          channel := { queue := p.channel.queue ++ [Message.NewJob f],
                       receiverAlive := true } }) ∧
    (p.channel.receiverAlive = false →
      p.execute f = .error Panic.unwrapFailed) := by
  obtain ⟨ws, q, al⟩ := p
  constructor <;> intro h <;> have hal := h <;> subst hal <;>
    simp [ThreadPool.execute, Channel.send]

/-- Witness for C5 on a live pool of size 2 and the job token `5`. -/
theorem execute_sends_one_message_witness :
    pool2.execute 5 = .ok
      { workers := pool2.workers,
        channel := { queue := pool2.channel.queue ++ [Message.NewJob 5],
                     receiverAlive := true } } :=
  (execute_sends_one_message pool2 5).1 rfl

/-- C6: the worker loop is the two-state machine of the spec: on
`NewJob(job)` it runs exactly that job and stays in `Running`; on `Terminate`
it exits the loop (`Terminated`); running a prefix of jobs followed by a
`Terminate` executes the jobs in order and then exits; and the loop exits if
and only if the messages it processes contain a `Terminate`. -/
theorem worker_two_state_machine :
    (∀ j : Job, workerHandle (Message.NewJob j) = ([j], WorkerState.Running)) ∧
    workerHandle Message.Terminate = ([], WorkerState.Terminated) ∧
    (∀ js rest, workerLoop (js.map Message.NewJob ++ Message.Terminate :: rest) =
      (js, WorkerState.Terminated)) ∧
    (∀ msgs : List Message,
      (workerLoop msgs).2 = WorkerState.Terminated ↔ Message.Terminate ∈ msgs) := by
  refine ⟨fun j => rfl, rfl, ?_, ?_⟩
  · intro js rest
    induction js with
    | nil => simp [workerLoop, workerHandle]
    | cons j js ih => simp [workerLoop, workerHandle, ih]
  · intro msgs
    induction msgs with
    | nil => simp [workerLoop]
    | cons m rest ih =>
      cases m with
      | NewJob j => simp [workerLoop, workerHandle, ih]
      | Terminate => simp [workerLoop, workerHandle]

/-- Witness for C6: two jobs then a `Terminate` run in order and exit. -/
theorem worker_two_state_machine_witness :
    workerLoop ([3, 4].map Message.NewJob ++ Message.Terminate :: []) =
      ([3, 4], WorkerState.Terminated) :=
  worker_two_state_machine.2.2.1 [3, 4] []

/-- C9: in the worker loop the mutex guard is released at the end of the
receive statement, before the dequeued job is invoked: at the point of every
`runJob` event the lock is no longer held, and a `release` event strictly
precedes it in the iteration trace. -/
theorem lock_released_before_job (m : Message) (i : Nat) (j : Job)
    (h : (workerIterationTrace m)[i]? = some (LockEvent.runJob j)) :
    lockHeldBefore (workerIterationTrace m) i = false ∧
    ∃ k, k < i ∧ (workerIterationTrace m)[k]? = some LockEvent.release := by
  cases m with
  | Terminate =>
    exfalso
    match i with
    | 0 => simp [workerIterationTrace] at h
    | 1 => simp [workerIterationTrace] at h
    | 2 => simp [workerIterationTrace] at h
    | k + 3 => simp [workerIterationTrace] at h
  | NewJob j0 =>
    match i with
    | 0 => simp [workerIterationTrace] at h
    | 1 => simp [workerIterationTrace] at h
    | 2 => simp [workerIterationTrace] at h
    | 3 => exact ⟨rfl, 2, by omega, rfl⟩
    | k + 4 => simp [workerIterationTrace] at h

/-- Witness for C9 at the message `NewJob 5` and its `runJob` position. -/
theorem lock_released_before_job_witness :
    lockHeldBefore (workerIterationTrace (Message.NewJob 5)) 3 = false ∧
    ∃ k, k < 3 ∧
      (workerIterationTrace (Message.NewJob 5))[k]? = some LockEvent.release :=
  lock_released_before_job (Message.NewJob 5) 3 5 rfl

/-- C3: dropping a pool with `n` workers first sends exactly `n` `Terminate`
messages on the shared channel, and only then joins the workers, in order of
worker id (the trace is `n` sends followed by the joins `0, 1, ..., n-1`);
every worker, all of whose handles are present, has its join in the trace, so
drop completes only after every worker thread has been joined. -/
theorem drop_sends_then_joins (n : Nat) (p : ThreadPool)
    (hw : p.workers = (List.range n).map Worker.new)
    (halive : p.channel.receiverAlive = true) :
    p.drop = .ok
      ({ workers := p.workers.map (fun w => { w with thread := none }),
         channel := { queue := p.channel.queue ++ List.replicate n Message.Terminate,
                      receiverAlive := true } },
       List.replicate n DropEvent.sendTerminate ++ (List.range n).map DropEvent.join) ∧
    ∀ w ∈ p.workers, DropEvent.join w.id ∈ (List.range n).map DropEvent.join := by
  obtain ⟨ws, q, al⟩ := p
  have hal : al = true := halive
  subst hal
  have hws : ws = (List.range n).map Worker.new := hw
  subst hws
  constructor
  · simp [ThreadPool.drop]
    rw [← List.filterMap_map, drop_joins]
  · intro w hw2
    simp only [List.mem_map] at hw2 ⊢
    obtain ⟨i, hi, rfl⟩ := hw2
    exact ⟨i, hi, rfl⟩

/-- Witness for C3 on a live pool of size 2. -/
theorem drop_sends_then_joins_witness :
    pool2.drop = .ok
      ({ workers := pool2.workers.map (fun w => { w with thread := none }),
         channel := { queue := pool2.channel.queue ++ List.replicate 2 Message.Terminate,
                      receiverAlive := true } },
       List.replicate 2 DropEvent.sendTerminate ++ (List.range 2).map DropEvent.join) ∧
    ∀ w ∈ pool2.workers, DropEvent.join w.id ∈ (List.range 2).map DropEvent.join :=
  drop_sends_then_joins 2 pool2 rfl rfl

/-- C7: every worker holds a present (`Some`) handle from construction until
teardown; teardown takes each handle exactly once (afterwards every handle is
`None`) and each worker's thread is joined exactly once in the drop trace, so
a double join is structurally impossible. -/
theorem thread_taken_exactly_once (n : Nat) (p : ThreadPool)
    (hw : p.workers = (List.range n).map Worker.new) :
    (∀ w ∈ p.workers, w.thread.isSome = true) ∧
    ∀ p2 tr, p.drop = .ok (p2, tr) →
      (∀ w ∈ p2.workers, w.thread = none) ∧
      (∀ w ∈ p.workers, tr.count (DropEvent.join w.id) = 1) := by
  constructor
  · intro w hw2
    rw [hw] at hw2
    simp only [List.mem_map] at hw2
    obtain ⟨i, hi, rfl⟩ := hw2
    rfl
  · intro p2 tr hdrop
    unfold ThreadPool.drop at hdrop
    by_cases hal : p.channel.receiverAlive = true
    · rw [if_pos hal] at hdrop
      simp only [Except.ok.injEq, Prod.mk.injEq] at hdrop
      obtain ⟨hp2, htr⟩ := hdrop
      subst hp2
      subst htr
      constructor
      · intro w hw2
        simp only [List.mem_map] at hw2
        obtain ⟨w0, _, rfl⟩ := hw2
        rfl
      · intro w hw2
        rw [hw] at hw2
        simp only [List.mem_map] at hw2
        obtain ⟨i, hi, rfl⟩ := hw2
        have hinj : Function.Injective DropEvent.join := fun a b hab => by
          simpa using hab
        rw [hw, drop_joins, List.count_append]
        simp only [Worker.new]
        rw [List.count_map_of_injective _ _ hinj]
        rw [List.count_eq_one_of_mem (List.nodup_range n) (List.mem_range.mpr (List.mem_range.mp hi))]
        simp [List.count_replicate]
    · rw [if_neg hal] at hdrop
      simp at hdrop

/-- Witness for C7 on a pool of size 2. -/
theorem thread_taken_exactly_once_witness :
    (∀ w ∈ pool2.workers, w.thread.isSome = true) ∧
    ∀ p2 tr, pool2.drop = .ok (p2, tr) →
      (∀ w ∈ p2.workers, w.thread = none) ∧
      (∀ w ∈ pool2.workers, tr.count (DropEvent.join w.id) = 1) :=
  thread_taken_exactly_once 2 pool2 rfl

/-- C4: jobs and `Terminate` signals share the one FIFO channel, so after a
pool built by `new`, loaded by `execute` calls and then torn down, the final
queue is all the submitted jobs followed by the `Terminate` messages, and
every `NewJob` occupies a strictly earlier queue position than every
`Terminate`: with workers dequeuing one message at a time in arrival order,
every previously submitted job is dequeued before any `Terminate` is
consumed. -/
theorem jobs_dequeued_before_terminates (n : Nat) (p p1 : ThreadPool) (fs : List Job)
    (hnew : ThreadPool.new n = .ok p)
    (hexec : ThreadPool.execAll p fs = .ok p1) :
    ∃ p2 tr, p1.drop = .ok (p2, tr) ∧
      p2.channel.queue = fs.map Message.NewJob ++ List.replicate n Message.Terminate ∧
      ∀ (i k : Nat) (f : Job), p2.channel.queue[i]? = some (Message.NewJob f) →
        p2.channel.queue[k]? = some Message.Terminate → i < k := by
  obtain ⟨hw, hch⟩ := new_ok_shape n p hnew
  obtain ⟨ws, q, al⟩ := p
  have hws : ws = (List.range n).map Worker.new := hw
  have hq : q = [] := congrArg Channel.queue hch
  have hal : al = true := congrArg Channel.receiverAlive hch
  subst hws
  subst hq
  subst hal
  have h1 := execAll_ok fs
    { workers := (List.range n).map Worker.new,
      channel := { queue := [], receiverAlive := true } } rfl
  rw [hexec] at h1
  injection h1 with h1
  subst h1
  refine ⟨_, _, rfl, ?_, ?_⟩
  · simp
  · intro i k f hi hk
    simp only [List.nil_append, List.length_map, List.length_range] at hi hk
    exact newJob_index_lt_terminate_index fs n i k f hi hk

/-- Witness for C4: a pool of size 2 with jobs `7` and `8` submitted. -/
theorem jobs_dequeued_before_terminates_witness :
    ∃ p2 tr, pool2exec.drop = .ok (p2, tr) ∧
      p2.channel.queue = [7, 8].map Message.NewJob ++ List.replicate 2 Message.Terminate ∧
      ∀ (i k : Nat) (f : Job), p2.channel.queue[i]? = some (Message.NewJob f) →
        p2.channel.queue[k]? = some Message.Terminate → i < k :=
  jobs_dequeued_before_terminates 2 pool2 pool2exec [7, 8] rfl rfl
